import Mathlib

/-!
Verification of `reach_ros` (`src/ik/moveit_ik_solver.cpp`): a shallow
embedding of the collision-aware MoveIt IK solver, its discretized variant
and the two plugin factories, together with theorems about the properties
claimed in the specification.

External collaborators (MoveIt robot model, planning scene, collision and
distance queries, the numerical IK routine behind `setFromIK`) are
abstracted as an environment record, exactly at the boundary at which the
C++ code calls them.  Scalars (`double`) are modelled as real numbers.
-/

namespace ReachRos

/-- `clamp` from the anonymous namespace of `moveit_ik_solver.cpp`:
`std::max(low, std::min(val, high))`. -/
noncomputable def clamp (val low high : ℝ) : ℝ :=
  max low (min val high)

/-- The C++ `int(x)` cast on a `double`: truncation toward zero. -/
noncomputable def cppTrunc (x : ℝ) : ℤ :=
  if 0 ≤ x then ⌊x⌋ else ⌈x⌉

/-- Eigen `Isometry3d`: a rigid transform stored as a rotation part and a
translation part. -/
structure Iso3 where
  rot : Matrix (Fin 3) (Fin 3) ℝ
  trans : Fin 3 → ℝ

/-- Composition of isometries, `A * B` in Eigen: the rotation parts
multiply and the translation is `A.rot * B.trans + A.trans`. -/
noncomputable def Iso3.comp (A B : Iso3) : Iso3 :=
  ⟨A.rot * B.rot, A.rot.mulVec B.trans + A.trans⟩

/-- `Eigen::AngleAxisd(θ, Eigen::Vector3d::UnitZ())` viewed as an isometry:
a pure rotation about the Z axis, with zero translation. -/
noncomputable def rotZ (θ : ℝ) : Iso3 :=
  ⟨Matrix.of ![![Real.cos θ, -Real.sin θ, 0],
               ![Real.sin θ, Real.cos θ, 0],
               ![0, 0, 1]], 0⟩

/-- The identity pose, used as a concrete sample target. -/
noncomputable def idIso : Iso3 :=
  ⟨1, 0⟩

/-- The external MoveIt / planning-scene collaborators, abstracted at the
call boundary of `MoveItIKSolver`:
* `activeJointNames` — `jmg_->getActiveJointModelNames()`;
* `baseFrame` — `jmg_->getSolverInstance()->getBaseFrame()`;
* `isStateColliding c` — `scene_->isStateColliding` at the state posed at
  configuration `c`;
* `distanceToCollision c` — `scene_->distanceToCollision` with the scene's
  allowed collision matrix, at the state posed at `c`;
* `setFromIK target seed isValid` — `state.setFromIK(jmg_, target, 0.0, cb)`:
  the numerical IK routine, returning the accepted joint values of the
  group on success and `none` on failure. -/
structure MoveItEnv where
  activeJointNames : List String
  baseFrame : String
  isStateColliding : List ℝ → Bool
  distanceToCollision : List ℝ → ℝ
  setFromIK : Iso3 → List ℝ → (List ℝ → Bool) → Option (List ℝ)

/-- Modelled from the spec: `utils::transcribeInputMap` (declared in this
repository's `utils.h`, implementation not under `src/`).  The seed map is
projected onto the chain's active joints in chain order: a joint present in
the map takes its value, a joint missing from the map keeps the default
(neutral) value, and extra names in the map are ignored. -/
def transcribeInputMap (seed : List (String × ℝ)) (jointNames : List String) :
    List ℝ :=
  jointNames.map (fun n => (((seed.find? (fun p => p.1 == n)).map Prod.snd).getD 0))

/-- `MoveItIKSolver::isIKSolutionValid`: poses the state at the candidate
solution, then accepts iff the state is not colliding and the distance to
collision is not below the distance threshold. -/
noncomputable def isIKSolutionValid (env : MoveItEnv) (distance_threshold : ℝ)
    (ik_solution : List ℝ) : Bool :=
  let colliding := env.isStateColliding ik_solution
  let too_close :=
    decide (env.distanceToCollision ik_solution < distance_threshold)
  !colliding && !too_close

/-- `MoveItIKSolver::getJointNames`: `jmg_->getActiveJointModelNames()`. -/
def MoveItIKSolver.getJointNames (env : MoveItEnv) : List String :=
  env.activeJointNames

/-- `MoveItIKSolver::getKinematicBaseFrame`. -/
def MoveItIKSolver.getKinematicBaseFrame (env : MoveItEnv) : String :=
  env.baseFrame

/-- `MoveItIKSolver::solveIK`: transcribe the seed onto the active joints,
run the numerical IK routine filtered by `isIKSolutionValid`, and return a
singleton list of the solution on success or the empty list on failure. -/
noncomputable def MoveItIKSolver.solveIK (env : MoveItEnv)
    (distance_threshold : ℝ) (target : Iso3) (seed : List (String × ℝ)) :
    List (List ℝ) :=
  match env.setFromIK target (transcribeInputMap seed env.activeJointNames)
      (isIKSolutionValid env distance_threshold) with
  | some solution => [solution]
  | none => []

/-- The `i`-th discretized target of `DiscretizedMoveItIKSolver::solveIK`:
`target * Eigen::AngleAxisd(double(i) * dt_, Eigen::Vector3d::UnitZ())`. -/
noncomputable def discretizedTarget (target : Iso3) (dt : ℝ) (i : ℕ) : Iso3 :=
  Iso3.comp target (rotZ (i * dt))

/-- The value of the function-local `static int n_discretizations`: on the
first call of the process the cell is empty and
`int((2.0 * M_PI) / dt_)` is computed from the calling instance's `dt_`;
afterwards the stored value is reused unchanged. -/
noncomputable def nDiscretizations (staticCell : Option ℤ) (dt : ℝ) : ℤ :=
  staticCell.getD (cppTrunc ((2 * Real.pi) / dt))

/-- The loop body of `DiscretizedMoveItIKSolver::solveIK`: for
`i = 0, …, n-1` solve the base problem at the `i`-th discretized target and
push the front of the result whenever it is non-empty. -/
noncomputable def DiscretizedMoveItIKSolver.solveIKLoop (env : MoveItEnv)
    (distance_threshold dt : ℝ) (n : ℕ) (target : Iso3)
    (seed : List (String × ℝ)) : List (List ℝ) :=
  (List.range n).filterMap (fun i =>
    (MoveItIKSolver.solveIK env distance_threshold
        (discretizedTarget target dt i) seed).head?)

/-- The list of the `n` independent base solve attempts made by the loop of
`DiscretizedMoveItIKSolver::solveIK` (one entry per loop iteration, in
iteration order). -/
noncomputable def DiscretizedMoveItIKSolver.attempts (env : MoveItEnv)
    (distance_threshold dt : ℝ) (n : ℕ) (target : Iso3)
    (seed : List (String × ℝ)) : List (List (List ℝ)) :=
  (List.range n).map (fun i =>
    MoveItIKSolver.solveIK env distance_threshold
      (discretizedTarget target dt i) seed)

/-- `DiscretizedMoveItIKSolver::solveIK` with the process-wide static cell
made explicit: the call returns its solution list together with the state
of the static cell after the call. -/
noncomputable def DiscretizedMoveItIKSolver.solveIK (env : MoveItEnv)
    (distance_threshold dt : ℝ) (staticCell : Option ℤ) (target : Iso3)
    (seed : List (String × ℝ)) : List (List ℝ) × Option ℤ :=
  let n := nDiscretizations staticCell dt
  (DiscretizedMoveItIKSolver.solveIKLoop env distance_threshold dt n.toNat
      target seed,
   some n)

/-- The sample indices of a discretized solve whose base attempt returned a
non-empty result. -/
noncomputable def successIndices (env : MoveItEnv) (distance_threshold dt : ℝ)
    (n : ℕ) (target : Iso3) (seed : List (String × ℝ)) : List ℕ :=
  (List.range n).filter (fun i =>
    !(MoveItIKSolver.solveIK env distance_threshold
        (discretizedTarget target dt i) seed).isEmpty)

/-- `DiscretizedMoveItIKSolverFactory::create`, discretization-angle part:
`dt = abs(raw)`, `clamped_dt = clamp(dt, 0, M_PI)`, warn iff
`abs(dt - clamped_dt) > 1.0e-6`, then proceed with `clamped_dt`.  Returns
the stored `dt` and whether the warning was emitted; the computation is
total — no input aborts construction. -/
noncomputable def DiscretizedMoveItIKSolverFactory.processDt (raw : ℝ) :
    ℝ × Bool :=
  let dt := |raw|
  let clamped_dt := clamp dt 0 Real.pi
  let warned := decide (|dt - clamped_dt| > 1 / 1000000)
  (clamped_dt, warned)

/-- The YAML key the factories look up for the collision-mesh filename. -/
def collisionMeshFilenameKey : String := "collision_mesh_filename"

/-- The YAML key the factories actually look up for the collision-mesh
frame: the C++ variable is named `collision_mesh_frame_key` but it holds
the string `"collision_mesh_key"`. -/
def collisionMeshFrameKey : String := "collision_mesh_key"

/-- The frame in which both factories add the obstacle mesh: the value
stored under `collisionMeshFrameKey` when that key is present in the
configuration, otherwise the solver's kinematic base frame. -/
def selectCollisionMeshFrame (config : String → Option String)
    (baseFrame : String) : String :=
  match config collisionMeshFrameKey with
  | some f => f
  | none => baseFrame

/-- A configuration that sets `collision_mesh_filename` and the documented
option `collision_mesh_frame`. -/
def c2Config : String → Option String := fun k =>
  if k = "collision_mesh_filename" then some "part.ply"
  else if k = "collision_mesh_frame" then some "custom_frame"
  else none

/-- A concrete environment: a two-joint chain whose numerical IK routine
always succeeds with the zero configuration. -/
def demoEnv : MoveItEnv :=
  ⟨["shoulder_joint", "elbow_joint"], "base_link",
   fun _ => false, fun _ => 1, fun _ _ _ => some [0, 0]⟩

/-! ### Helper lemmas -/

/-- The dt actually stored by the discretized factory, in closed form:
the absolute value of the raw angle capped at π. -/
theorem processDt_fst (raw : ℝ) :
    (DiscretizedMoveItIKSolverFactory.processDt raw).1 = min |raw| Real.pi := by
  show clamp |raw| 0 Real.pi = min |raw| Real.pi
  exact max_eq_right (le_min (abs_nonneg raw) Real.pi_pos.le)

/-- A `filterMap` of list heads is the map of heads over the positions with
non-empty lists. -/
theorem filterMap_head_eq_map {α : Type} [Inhabited α] (g : ℕ → List α)
    (l : List ℕ) :
    l.filterMap (fun i => (g i).head?) =
      (l.filter (fun i => !(g i).isEmpty)).map (fun i => (g i).headI) := by
  induction l with
  | nil => rfl
  | cons a l ih =>
    cases h : g a with
    | nil => simp [List.filterMap_cons, List.filter_cons, h, ih]
    | cons x xs => simp [List.filterMap_cons, List.filter_cons, h, ih]

/-- Any member of a base solve result is the configuration accepted by the
numerical IK routine. -/
theorem base_solve_mem (env : MoveItEnv) (th : ℝ) (target : Iso3)
    (seed : List (String × ℝ)) (c : List ℝ)
    (hc : c ∈ MoveItIKSolver.solveIK env th target seed) :
    env.setFromIK target (transcribeInputMap seed env.activeJointNames)
      (isIKSolutionValid env th) = some c := by
  unfold MoveItIKSolver.solveIK at hc
  revert hc
  cases h : env.setFromIK target (transcribeInputMap seed env.activeJointNames)
      (isIKSolutionValid env th) with
  | none => intro hc; exact absurd hc (List.not_mem_nil c)
  | some sol =>
    intro hc
    rw [List.mem_singleton.1 hc]

/-- `2π / (π/2) = 4`. -/
theorem two_pi_div_half_pi : 2 * Real.pi / (Real.pi / 2) = 4 := by
  have hπ := Real.pi_ne_zero
  field_simp
  ring

/-- `2π / π = 2`. -/
theorem two_pi_div_pi : 2 * Real.pi / Real.pi = 2 := by
  rw [mul_div_assoc, div_self Real.pi_ne_zero, mul_one]

/-- `int()` truncation of the real number 4. -/
theorem cppTrunc_four : cppTrunc 4 = 4 := by
  unfold cppTrunc
  rw [if_pos (by norm_num : (0:ℝ) ≤ 4)]
  norm_num

/-- `int()` truncation of the real number 2. -/
theorem cppTrunc_two : cppTrunc 2 = 2 := by
  unfold cppTrunc
  rw [if_pos (by norm_num : (0:ℝ) ≤ 2)]
  norm_num

/-! ### Claims -/

/-- C1 (counterexample): the raw discretization angle `0` is accepted by
the factory, yet the stored dt is `0`, which is not strictly positive —
the claim "the dt stored in the constructed solver is strictly positive"
fails at raw value `0`. -/
theorem C1_dt_not_positive_counterexample :
    (DiscretizedMoveItIKSolverFactory.processDt 0).1 = 0 ∧
    ¬ (0 < (DiscretizedMoveItIKSolverFactory.processDt 0).1) := by
  have h : (DiscretizedMoveItIKSolverFactory.processDt 0).1 = 0 := by
    rw [processDt_fst, abs_zero, min_eq_left Real.pi_pos.le]
  exact ⟨h, by rw [h]; exact lt_irrefl 0⟩

/-- C1 (amended): for every raw discretization angle the stored dt lies in
`[0, π]`, and it is strictly positive exactly when the raw value is
non-zero; a raw value of `0` stores `dt = 0`, so the division `2π / dt`
inside `solveIK` is not protected in that one case. -/
theorem C1_dt_range_amended (raw : ℝ) :
    0 ≤ (DiscretizedMoveItIKSolverFactory.processDt raw).1 ∧
    (DiscretizedMoveItIKSolverFactory.processDt raw).1 ≤ Real.pi ∧
    (0 < (DiscretizedMoveItIKSolverFactory.processDt raw).1 ↔ raw ≠ 0) := by
  rw [processDt_fst]
  refine ⟨le_min (abs_nonneg raw) Real.pi_pos.le, min_le_right _ _, ?_⟩
  rw [lt_min_iff]
  constructor
  · rintro ⟨h1, -⟩ h0
    rw [h0, abs_zero] at h1
    exact lt_irrefl 0 h1
  · intro h0
    exact ⟨abs_pos.2 h0, Real.pi_pos⟩

/-- C2: a configuration carrying the documented option
`collision_mesh_frame` with value `custom_frame` (and a mesh filename) has
its frame option ignored by the factories — the code looks up the
misspelled key `collision_mesh_key`, so the selected frame falls back to
the kinematic base frame. -/
theorem C2_frame_key_eval :
    c2Config "collision_mesh_frame" = some "custom_frame" ∧
    c2Config collisionMeshFilenameKey = some "part.ply" ∧
    selectCollisionMeshFrame c2Config "base_link" = "base_link" :=
  ⟨rfl, rfl, rfl⟩

/-- C3: a candidate joint configuration is accepted by
`MoveItIKSolver::isIKSolutionValid` iff the posed state is not colliding
and its distance to collision is at least the distance threshold. -/
theorem C3_validity_predicate_iff (env : MoveItEnv) (distance_threshold : ℝ)
    (ik_solution : List ℝ) :
    isIKSolutionValid env distance_threshold ik_solution = true ↔
      (env.isStateColliding ik_solution = false ∧
       distance_threshold ≤ env.distanceToCollision ik_solution) := by
  simp [isIKSolutionValid, not_lt, Bool.not_eq_true']

/-- C7: `MoveItIKSolver::solveIK` returns exactly the content of the
numerical IK routine's optional result — a one-element sequence with the
accepted configuration on success, the empty sequence on failure — and in
particular its length is at most one. -/
theorem C7_base_solve_at_most_one (env : MoveItEnv) (distance_threshold : ℝ)
    (target : Iso3) (seed : List (String × ℝ)) :
    MoveItIKSolver.solveIK env distance_threshold target seed
        = (env.setFromIK target (transcribeInputMap seed env.activeJointNames)
            (isIKSolutionValid env distance_threshold)).toList ∧
    (MoveItIKSolver.solveIK env distance_threshold target seed).length ≤ 1 := by
  unfold MoveItIKSolver.solveIK
  cases env.setFromIK target (transcribeInputMap seed env.activeJointNames)
      (isIKSolutionValid env distance_threshold) with
  | none => exact ⟨rfl, by simp⟩
  | some sol => exact ⟨rfl, by simp⟩

/-- C9: the discretized factory stores `min |raw| π` (the absolute value of
the raw discretization angle clamped into `[0, π]`), and emits its warning
exactly when the clamped value differs from the pre-clamp absolute value by
more than `1e-6`, i.e. exactly when `|raw| > π + 1e-6`; the computation is
total, so no discretization angle aborts construction. -/
theorem C9_discretization_clamping (raw : ℝ) :
    (DiscretizedMoveItIKSolverFactory.processDt raw).1 = min |raw| Real.pi ∧
    ((DiscretizedMoveItIKSolverFactory.processDt raw).2 = true ↔
      Real.pi + 1 / 1000000 < |raw|) := by
  refine ⟨processDt_fst raw, ?_⟩
  have h2 : (DiscretizedMoveItIKSolverFactory.processDt raw).2
      = decide (|(|raw|) - min |raw| Real.pi| > 1 / 1000000) := by
    show decide (|(|raw|) - clamp |raw| 0 Real.pi| > 1 / 1000000) = _
    rw [show clamp |raw| 0 Real.pi = min |raw| Real.pi from processDt_fst raw]
  rw [h2, decide_eq_true_eq]
  rcases le_total |raw| Real.pi with h | h
  · rw [min_eq_left h, sub_self, abs_zero]
    constructor
    · intro hgt
      exact absurd hgt (by norm_num)
    · intro hgt
      exfalso
      linarith
  · rw [min_eq_right h, abs_of_nonneg (sub_nonneg.2 h)]
    constructor
    · intro hgt; linarith
    · intro hgt; linarith

/-- C4 (counterexample): the per-call sample count does not follow the
calling instance's dt once the static cell is set.  A first call with
`dt = π` stores `N = 2` in the function-local static; a later call with
`dt = π/2 ∈ (0, π]` then makes only 2 base attempts although
`⌊2π/(π/2)⌋ = 4` — the claim "exactly N = floor(2π/dt) candidate poses per
call" fails at that call. -/
theorem C4_static_reuse_counterexample :
    0 < Real.pi / 2 ∧ Real.pi / 2 ≤ Real.pi ∧
    (DiscretizedMoveItIKSolver.solveIK demoEnv 0 Real.pi none idIso []).2
        = some 2 ∧
    ((DiscretizedMoveItIKSolver.attempts demoEnv 0 (Real.pi / 2)
        (nDiscretizations (some 2) (Real.pi / 2)).toNat idIso []).length : ℤ)
        = 2 ∧
    cppTrunc (2 * Real.pi / (Real.pi / 2)) = 4 := by
  refine ⟨by positivity, by linarith [Real.pi_pos], ?_, ?_, ?_⟩
  · show some (nDiscretizations none Real.pi) = some 2
    rw [show nDiscretizations none Real.pi
          = cppTrunc (2 * Real.pi / Real.pi) from rfl,
        two_pi_div_pi, cppTrunc_two]
  · show (((List.range (nDiscretizations (some 2) (Real.pi / 2)).toNat).map
        _).length : ℤ) = 2
    rw [List.length_map, List.length_range]
    decide
  · rw [two_pi_div_half_pi, cppTrunc_four]

/-- C4 (amended): on a call made while the function-local static is still
uninitialized (in particular the first `solveIK` call of the process), for
every `dt ∈ (0, π]` exactly `⌊2π/dt⌋` candidate target poses are generated
and that many independent base solve attempts are made, with no early
exit; e.g. `dt = π/2` gives 4 and `dt = π` gives 2.  Subsequent calls
reuse the memoized count (see C10). -/
theorem C4_first_call_count_amended (env : MoveItEnv) (th : ℝ) (target : Iso3)
    (seed : List (String × ℝ)) (dt : ℝ) (h1 : 0 < dt) (_h2 : dt ≤ Real.pi) :
    ((DiscretizedMoveItIKSolver.attempts env th dt
        (nDiscretizations none dt).toNat target seed).length : ℤ)
        = ⌊2 * Real.pi / dt⌋ ∧
    DiscretizedMoveItIKSolver.solveIKLoop env th dt
        (nDiscretizations none dt).toNat target seed
        = (DiscretizedMoveItIKSolver.attempts env th dt
            (nDiscretizations none dt).toNat target seed).filterMap
              List.head? ∧
    cppTrunc (2 * Real.pi / (Real.pi / 2)) = 4 ∧
    cppTrunc (2 * Real.pi / Real.pi) = 2 := by
  have hnn : (0:ℝ) ≤ 2 * Real.pi / dt := div_nonneg (by positivity) h1.le
  have hnd : nDiscretizations none dt = ⌊2 * Real.pi / dt⌋ := by
    show cppTrunc (2 * Real.pi / dt) = _
    unfold cppTrunc
    rw [if_pos hnn]
  have hfl : (0:ℤ) ≤ ⌊2 * Real.pi / dt⌋ :=
    Int.le_floor.2 (by exact_mod_cast hnn)
  refine ⟨?_, ?_, ?_, ?_⟩
  · show (((List.range _).map _).length : ℤ) = _
    rw [List.length_map, List.length_range, hnd, Int.toNat_of_nonneg hfl]
  · show (List.range _).filterMap _ = ((List.range _).map _).filterMap
        List.head?
    rw [List.filterMap_map]
    rfl
  · rw [two_pi_div_half_pi, cppTrunc_four]
  · rw [two_pi_div_pi, cppTrunc_two]

/-- C4 (witness): the amended count theorem applied at `dt = π` on a
concrete two-joint environment. -/
theorem C4_first_call_count_amended_witness :
    (0:ℝ) < Real.pi ∧ Real.pi ≤ Real.pi ∧
    (((DiscretizedMoveItIKSolver.attempts demoEnv 0 Real.pi
        (nDiscretizations none Real.pi).toNat idIso []).length : ℤ)
        = ⌊2 * Real.pi / Real.pi⌋ ∧
    DiscretizedMoveItIKSolver.solveIKLoop demoEnv 0 Real.pi
        (nDiscretizations none Real.pi).toNat idIso []
        = (DiscretizedMoveItIKSolver.attempts demoEnv 0 Real.pi
            (nDiscretizations none Real.pi).toNat idIso []).filterMap
              List.head? ∧
    cppTrunc (2 * Real.pi / (Real.pi / 2)) = 4 ∧
    cppTrunc (2 * Real.pi / Real.pi) = 2) :=
  ⟨Real.pi_pos, le_refl Real.pi,
   C4_first_call_count_amended demoEnv 0 idIso [] Real.pi Real.pi_pos
     (le_refl Real.pi)⟩

/-- C5: the `i`-th candidate pose of the discretized solver is the nominal
target composed on the right with a rotation of angle `i * dt` about the
local Z axis, and in particular its translation equals the target's
translation — only the orientation varies. -/
theorem C5_candidate_pose_rotation (target : Iso3) (dt : ℝ) (i : ℕ) :
    discretizedTarget target dt i = Iso3.comp target (rotZ (i * dt)) ∧
    (discretizedTarget target dt i).rot
        = target.rot * (rotZ (i * dt)).rot ∧
    (discretizedTarget target dt i).trans = target.trans := by
  refine ⟨rfl, rfl, ?_⟩
  show target.rot.mulVec (rotZ ((i : ℝ) * dt)).trans + target.trans
      = target.trans
  rw [show (rotZ ((i : ℝ) * dt)).trans = 0 from rfl, Matrix.mulVec_zero,
      zero_add]

/-- C6: the discretized result is the list of the head solutions of the
successful sample indices, taken in increasing index order with no
deduplication; its length is the number of successful indices and is at
most the number of samples. -/
theorem C6_aggregation_order (env : MoveItEnv) (distance_threshold dt : ℝ)
    (n : ℕ) (target : Iso3) (seed : List (String × ℝ)) :
    DiscretizedMoveItIKSolver.solveIKLoop env distance_threshold dt n target
        seed
        = (successIndices env distance_threshold dt n target seed).map
            (fun i => (MoveItIKSolver.solveIK env distance_threshold
                (discretizedTarget target dt i) seed).headI) ∧
    (DiscretizedMoveItIKSolver.solveIKLoop env distance_threshold dt n target
        seed).length
        = (successIndices env distance_threshold dt n target seed).length ∧
    List.Pairwise (fun a b => a < b)
        (successIndices env distance_threshold dt n target seed) ∧
    (DiscretizedMoveItIKSolver.solveIKLoop env distance_threshold dt n target
        seed).length ≤ n := by
  have hmap : DiscretizedMoveItIKSolver.solveIKLoop env distance_threshold dt
      n target seed
      = (successIndices env distance_threshold dt n target seed).map
          (fun i => (MoveItIKSolver.solveIK env distance_threshold
              (discretizedTarget target dt i) seed).headI) :=
    filterMap_head_eq_map _ _
  have hpair : List.Pairwise (fun a b => a < b)
      (successIndices env distance_threshold dt n target seed) :=
    (List.pairwise_lt_range n).filter _
  have hlen : (DiscretizedMoveItIKSolver.solveIKLoop env distance_threshold
      dt n target seed).length
      = (successIndices env distance_threshold dt n target seed).length := by
    rw [hmap, List.length_map]
  refine ⟨hmap, hlen, hpair, ?_⟩
  rw [hlen]
  calc (successIndices env distance_threshold dt n target seed).length
      ≤ (List.range n).length := List.length_filter_le _ _
    _ = n := List.length_range n

/-- C8: assuming the MoveIt contract that the numerical IK routine returns
one value per active joint of the group (`copyJointGroupPositions`), every
configuration in the sequence returned by either solver has exactly
`len(getJointNames())` entries. -/
theorem C8_solution_lengths (env : MoveItEnv) (th dt : ℝ)
    (staticCell : Option ℤ) (target : Iso3) (seed : List (String × ℝ))
    (hmv : ∀ t s f sol, env.setFromIK t s f = some sol →
        sol.length = env.activeJointNames.length) :
    (∀ c ∈ MoveItIKSolver.solveIK env th target seed,
        c.length = (MoveItIKSolver.getJointNames env).length) ∧
    (∀ c ∈ (DiscretizedMoveItIKSolver.solveIK env th dt staticCell target
        seed).1,
        c.length = (MoveItIKSolver.getJointNames env).length) := by
  have hbase : ∀ (t : Iso3) (c : List ℝ),
      c ∈ MoveItIKSolver.solveIK env th t seed →
        c.length = env.activeJointNames.length := by
    intro t c hc
    exact hmv _ _ _ _ (base_solve_mem env th t seed c hc)
  constructor
  · intro c hc
    exact hbase target c hc
  · intro c hc
    obtain ⟨i, -, hhead⟩ := List.mem_filterMap.1 hc
    exact hbase _ c (List.mem_of_mem_head? hhead)

/-- C8 (witness): the length theorem applied to a concrete two-joint
environment whose IK routine always returns the two-entry zero
configuration. -/
theorem C8_solution_lengths_witness :
    (∀ c ∈ MoveItIKSolver.solveIK demoEnv 0 idIso [],
        c.length = (MoveItIKSolver.getJointNames demoEnv).length) ∧
    (∀ c ∈ (DiscretizedMoveItIKSolver.solveIK demoEnv 0 Real.pi none idIso
        []).1,
        c.length = (MoveItIKSolver.getJointNames demoEnv).length) :=
  C8_solution_lengths demoEnv 0 Real.pi none idIso []
    (fun t s f sol h => by
      have h2 : some [(0:ℝ), 0] = some sol := h
      rw [← Option.some_inj.1 h2]
      rfl)

/-- C10: the discretization count is a function-local static computed once
per process: a first call (empty cell) stores `int(2π / dt₁)` computed from
the calling instance's `dt_`, and every later call — by any instance, with
any `dt₂` — runs its loop with the stored count `m` unchanged, making
`m.toNat` base attempts instead of recomputing `int(2π / dt₂)`. -/
theorem C10_static_once_per_process (env env₂ : MoveItEnv)
    (th th₂ dt₁ dt₂ : ℝ) (t t₂ : Iso3) (s s₂ : List (String × ℝ)) (m : ℤ) :
    (DiscretizedMoveItIKSolver.solveIK env th dt₁ none t s).2
        = some (cppTrunc ((2 * Real.pi) / dt₁)) ∧
    nDiscretizations (some m) dt₂ = m ∧
    DiscretizedMoveItIKSolver.solveIK env₂ th₂ dt₂ (some m) t₂ s₂
        = (DiscretizedMoveItIKSolver.solveIKLoop env₂ th₂ dt₂ m.toNat t₂ s₂,
           some m) ∧
    (DiscretizedMoveItIKSolver.attempts env₂ th₂ dt₂
        (nDiscretizations (some m) dt₂).toNat t₂ s₂).length = m.toNat := by
  refine ⟨rfl, rfl, rfl, ?_⟩
  show ((List.range m.toNat).map _).length = m.toNat
  rw [List.length_map, List.length_range]

end ReachRos
